import Mathlib

/-!
# ESP32Time: overflow-compensated real-time clock wrapper

A shallow embedding of `ESP32Time.cpp` / `ESP32Time.h`.

Conventions of the target (ESP32, ILP32 data model, current toolchain):

* `unsigned long` and `long` are 32 bits wide; a value converted to
  `unsigned long` is reduced modulo `2 ^ 32` (`toULong`);
* `time_t` is a signed 64-bit integer; every value the functions below can
  produce from 32-bit inputs is far inside its range, so `time_t` values are
  modelled as unbounded `Int`;
* signed overflow is undefined behaviour in C. The product `offset * -1` of
  `getTimeStruct` is a `long` and has no result when it overflows (`mulLong`),
  so `getTimeStruct` and every function that reads it return an `Option`;
* the fields of `struct tm` and the `int` arguments are modelled as `Int`;
  statements about them say which values are in the `int` range where that
  matters;
* no time zone is configured, so `localtime`/`localtime_r`/`mktime` work in
  UTC without daylight saving.
-/

namespace ESP32Time

/-! ## Machine integers -/

/-- Number of values of an `unsigned long` (32 bits). -/
def ULONG_MOD : Nat := 4294967296

/-- Conversion of a signed value to `unsigned long`. -/
def toULong (x : Int) : Nat := (x % 4294967296).toNat

/-- Product of two `long` values. Signed overflow is undefined behaviour: there
is no result when the product is outside the `long` range. -/
def mulLong (a b : Int) : Option Int :=
  if -2147483648 ≤ a * b ∧ a * b ≤ 2147483647 then some (a * b) else none

/-! ## The C library's broken-down time -/

/-- The `struct tm` of `<time.h>`. -/
structure Tm where
  tm_sec : Int
  tm_min : Int
  tm_hour : Int
  tm_mday : Int
  tm_mon : Int
  tm_year : Int
  tm_wday : Int
  tm_yday : Int
  tm_isdst : Int
deriving DecidableEq, Repr

/-- Gregorian leap-year rule (the calendar of the spec's glossary, used to say
which dates are valid). -/
def isLeap (y : Int) : Bool :=
  y % 4 = 0 && (y % 100 != 0 || y % 400 = 0)

/-- Length of month `m` (1..12) of year `y` in the Gregorian calendar. -/
def daysInMonth (y m : Int) : Int :=
  if m = 2 then (if isLeap y then 29 else 28)
  else if m = 4 ∨ m = 6 ∨ m = 9 ∨ m = 11 then 30
  else 31

/-- Modelled from the spec: step of the platform's calendar break-down. Year of
the 400-year era (the era starts on 1 March) of a day of the era. -/
def erayearOf (eraday : Int) : Int :=
  (eraday - eraday / 1460 + eraday / 36524 - eraday / 146096) / 365

/-- Modelled from the spec: step of the platform's calendar break-down. Day of
the March-based year of a day of the era. -/
def yeardayOf (eraday : Int) : Int :=
  eraday - (365 * erayearOf eraday + erayearOf eraday / 4 - erayearOf eraday / 100)

/-- Modelled from the spec: step of the platform's calendar break-down. Month
(0..11, January first) of a day of the March-based year. -/
def monthOf (yearday : Int) : Int :=
  if (5 * yearday + 2) / 153 < 10 then (5 * yearday + 2) / 153 + 2
  else (5 * yearday + 2) / 153 - 10

/-- Modelled from the spec: step of the platform's calendar break-down. Day of
the month of a day of the March-based year. -/
def mdayOf (yearday : Int) : Int :=
  yearday - (153 * ((5 * yearday + 2) / 153) + 2) / 5 + 1

/-- Modelled from the spec: the platform's `gmtime_r` / `localtime_r` / `localtime`
(C library, not part of the repository), "the standard Gregorian proleptic
calendar break-down, UTC, no DST". Days are counted from 0000-03-01; the year,
month and day come from the position in the 400-year era. -/
def localtime (t : Int) : Tm :=
  let days := t / 86400 + 719468
  let rem := t % 86400
  let era := days / 146097
  let eraday := days % 146097
  let erayear := erayearOf eraday
  let yearday := yeardayOf eraday
  let month := monthOf yearday
  let year := erayear + era * 400 + (if month ≤ 1 then 1 else 0)
  { tm_sec := rem % 60
    tm_min := rem % 3600 / 60
    tm_hour := rem / 3600
    tm_mday := mdayOf yearday
    tm_mon := month
    tm_year := year - 1900
    tm_wday := (3 + days) % 7
    tm_yday := if yearday ≥ 306 then yearday - 306
               else yearday + 59 + (if isLeap erayear then 1 else 0)
    tm_isdst := 0 }

/-- Modelled from the spec: step of the platform's calendar-to-epoch conversion.
Days from 1970-01-01 to day `d` of month `m` (0..11) of year `y`; `d` may lie
outside the month, the excess carries linearly. -/
def daysFromCivil (y m d : Int) : Int :=
  let y1 := if m ≤ 1 then y - 1 else y
  let mp := if m ≤ 1 then m + 10 else m - 2
  let era := y1 / 400
  let yoe := y1 % 400
  let doy := (153 * mp + 2) / 5 + d - 1
  let doe := yoe * 365 + yoe / 4 - yoe / 100 + doy
  era * 146097 + doe - 719468

/-- Modelled from the spec: the platform's `mktime` (C library, not part of the
repository), "the standard calendar-to-epoch algorithm" in UTC, which
normalises out-of-range fields instead of rejecting them: a month outside
0..11 carries into the year, and days, hours, minutes and seconds carry
linearly. `tm_wday`, `tm_yday` and `tm_isdst` are not read. -/
def mktime (t : Tm) : Int :=
  let months := (t.tm_year + 1900) * 12 + t.tm_mon
  daysFromCivil (months / 12) (months % 12) t.tm_mday * 86400
    + t.tm_hour * 3600 + t.tm_min * 60 + t.tm_sec

/-- Two broken-down times show the same year, month, day, hour, minute and second. -/
abbrev sameDateTime (a b : Tm) : Prop :=
  a.tm_year = b.tm_year ∧ a.tm_mon = b.tm_mon ∧ a.tm_mday = b.tm_mday ∧
  a.tm_hour = b.tm_hour ∧ a.tm_min = b.tm_min ∧ a.tm_sec = b.tm_sec

/-! ## The clock state -/

/-- Device-wide state touched by the class: the file-level `static bool overflow`
and the system time of day (`struct timeval`) behind `settimeofday`,
`gettimeofday` and `time`, taken as a store that gives back the pair written
(the spec's hardware clock store). No tick happens between two calls. -/
structure Clock where
  overflow : Bool
  tv_sec : Int
  tv_usec : Int
deriving DecidableEq, Repr

/-- `ESP32Time::setTime(unsigned long epoch, int ms)`. -/
def setTime (_c : Clock) (epoch : Nat) (ms : Int) : Clock :=
  if epoch > 2082758399 then
    { overflow := true, tv_sec := ((epoch - 2082758399 : Nat) : Int), tv_usec := ms }
  else
    { overflow := false, tv_sec := (epoch : Int), tv_usec := ms }

/-- `ESP32Time::setTime(int sc, int mn, int hr, int dy, int mt, int yr, int ms)`. -/
def setTimeCal (c : Clock) (sc mn hr dy mt yr : Int) (ms : Int) : Clock :=
  let t : Tm :=
    { tm_sec := sc, tm_min := mn, tm_hour := hr, tm_mday := dy, tm_mon := mt - 1,
      tm_year := yr - 1900, tm_wday := 0, tm_yday := 0, tm_isdst := 0 }
  let timeSinceEpoch := mktime t
  setTime c (toULong timeSinceEpoch) ms

/-- `ESP32Time::setTimeStruct(tm t)`. -/
def setTimeStruct (c : Clock) (t : Tm) : Clock :=
  let timeSinceEpoch := mktime t
  setTime c (toULong timeSinceEpoch) 0

/-- Lines 125-129 of `getTimeStruct`: the branch that applies the `long offset`
to the `time_t tt`. The product `offset * -1` is a `long`; when it overflows
(at the most negative `long`) the branch has no defined result. -/
def applyOffset (tt offset : Int) : Option Int :=
  if offset > 0 then some (tt + (toULong offset : Int))
  else
    match mulLong offset (-1) with
    | some negated => some (tt - (toULong negated : Int))
    | none => none

/-- `ESP32Time::getTimeStruct()`; `offset` is the instance's `long offset` field.
The result is `none` when the offset branch has no defined result. -/
def getTimeStruct (c : Clock) (offset : Int) : Option Tm :=
  let now := c.tv_sec
  let timeinfo := localtime now
  let tt := mktime timeinfo
  let tt := if c.overflow then tt + 63071999 else tt
  match applyOffset tt offset with
  | none => none
  | some tt =>
    let tn := localtime tt
    some (if c.overflow then { tn with tm_year := tn.tm_year + 64 } else tn)

/-- `ESP32Time::getEpoch()`. -/
def getEpoch (c : Clock) (offset : Int) : Option Nat :=
  (getTimeStruct c offset).map fun timeinfo =>
    toULong (mktime timeinfo)

/-- `ESP32Time::getLocalEpoch()`; the instance's `offset` is not read. -/
def getLocalEpoch (c : Clock) (_offset : Int) : Nat :=
  let epoch := toULong c.tv_sec
  if c.overflow then (epoch + (63071999 + 2019686400)) % ULONG_MOD else epoch

/-- `ESP32Time::getMillis()`. -/
def getMillis (c : Clock) (_offset : Int) : Nat :=
  toULong (Int.tdiv c.tv_usec 1000)

/-- `ESP32Time::getMicros()`. -/
def getMicros (c : Clock) (_offset : Int) : Nat :=
  toULong c.tv_usec

/-- `ESP32Time::getSecond()`. -/
def getSecond (c : Clock) (offset : Int) : Option Int :=
  (getTimeStruct c offset).map fun timeinfo =>
    timeinfo.tm_sec

/-- `ESP32Time::getMinute()`. -/
def getMinute (c : Clock) (offset : Int) : Option Int :=
  (getTimeStruct c offset).map fun timeinfo =>
    timeinfo.tm_min

/-- `ESP32Time::getHour(bool mode)`: `true` is the 24 hour mode. -/
def getHour (c : Clock) (offset : Int) (mode : Bool) : Option Int :=
  (getTimeStruct c offset).map fun timeinfo =>
    if mode then timeinfo.tm_hour
    else
      let hour := timeinfo.tm_hour
      if hour > 12 then timeinfo.tm_hour - 12
      else if hour = 0 then 12
      else timeinfo.tm_hour

/-- `ESP32Time::getAmPm(bool lowercase)`. -/
def getAmPm (c : Clock) (offset : Int) (lowercase : Bool) : Option String :=
  (getTimeStruct c offset).map fun timeinfo =>
    if timeinfo.tm_hour ≥ 12 then
      if lowercase then "pm" else "PM"
    else
      if lowercase then "am" else "AM"

/-- `ESP32Time::getDay()`. -/
def getDay (c : Clock) (offset : Int) : Option Int :=
  (getTimeStruct c offset).map fun timeinfo =>
    timeinfo.tm_mday

/-- `ESP32Time::getDayofWeek()`. -/
def getDayofWeek (c : Clock) (offset : Int) : Option Int :=
  (getTimeStruct c offset).map fun timeinfo =>
    timeinfo.tm_wday

/-- `ESP32Time::getDayofYear()`. -/
def getDayofYear (c : Clock) (offset : Int) : Option Int :=
  (getTimeStruct c offset).map fun timeinfo =>
    timeinfo.tm_yday

/-- `ESP32Time::getMonth()`. -/
def getMonth (c : Clock) (offset : Int) : Option Int :=
  (getTimeStruct c offset).map fun timeinfo =>
    timeinfo.tm_mon

/-- `ESP32Time::getYear()`. -/
def getYear (c : Clock) (offset : Int) : Option Int :=
  (getTimeStruct c offset).map fun timeinfo =>
    timeinfo.tm_year + 1900

/-! ## Formatting -/

/-- Abbreviated weekday names of the C locale (`%a`). -/
def wdayAbbr : List String := ["Sun", "Mon", "Tue", "Wed", "Thu", "Fri", "Sat"]

/-- Full weekday names of the C locale (`%A`). -/
def wdayName : List String :=
  ["Sunday", "Monday", "Tuesday", "Wednesday", "Thursday", "Friday", "Saturday"]

/-- Abbreviated month names of the C locale (`%b`). -/
def monAbbr : List String :=
  ["Jan", "Feb", "Mar", "Apr", "May", "Jun", "Jul", "Aug", "Sep", "Oct", "Nov", "Dec"]

/-- Full month names of the C locale (`%B`). -/
def monName : List String :=
  ["January", "February", "March", "April", "May", "June", "July", "August",
   "September", "October", "November", "December"]

/-- Name number `i` of a table, `?` when the index is outside it. -/
def nameAt (table : List String) (i : Int) : String :=
  if i < 0 then "?" else table.getD i.toNat "?"

/-- Decimal text of an integer. -/
def decimal (n : Int) : String :=
  if n < 0 then "-" ++ Nat.repr n.natAbs else Nat.repr n.natAbs

/-- Decimal text padded with a zero to two digits (`%d`). -/
def pad2 (n : Int) : String :=
  if 0 ≤ n ∧ n < 10 then "0" ++ decimal n else decimal n

/-- Modelled from the spec: `strftime` (C library, not part of the repository)
applied to the two patterns of `getDate`, in the C locale: the long pattern
`%A, %B %d %Y` and the short pattern `%a, %b %d %Y`. -/
def strftimeDate (long : Bool) (t : Tm) : String :=
  (if long then nameAt wdayName t.tm_wday else nameAt wdayAbbr t.tm_wday) ++ ", " ++
  (if long then nameAt monName t.tm_mon else nameAt monAbbr t.tm_mon) ++ " " ++
  pad2 t.tm_mday ++ " " ++ decimal (t.tm_year + 1900)

/-- `ESP32Time::getDate(bool mode)`: `true` is the long format. -/
def getDate (c : Clock) (offset : Int) (mode : Bool) : Option String :=
  (getTimeStruct c offset).map fun timeinfo =>
    if mode then strftimeDate true timeinfo else strftimeDate false timeinfo

/-! ## Statements about the calendar form of `setTime` -/

/-- A valid calendar date and time of day, month 1..12. -/
abbrev validDateTime (sc mn hr dy mt yr : Int) : Prop :=
  1 ≤ mt ∧ mt ≤ 12 ∧ 1 ≤ dy ∧ dy ≤ daysInMonth yr mt ∧
  0 ≤ hr ∧ hr ≤ 23 ∧ 0 ≤ mn ∧ mn ≤ 59 ∧ 0 ≤ sc ∧ sc ≤ 59

/-- Seconds from 1970-01-01T00:00:00Z to a calendar date and time of day, the
month 1..12 being decremented to 0..11. -/
def utcEpoch (sc mn hr dy mt yr : Int) : Int :=
  daysFromCivil yr (mt - 1) dy * 86400 + hr * 3600 + mn * 60 + sc

/-- The calendar form of `setTime` stores, for one date and time, the clock that
`setTime(E, 0)` stores for the UTC epoch `E` of the date. -/
abbrev calendarStored (c : Clock) (sc mn hr dy mt yr : Int) : Prop :=
  setTimeCal c sc mn hr dy mt yr 0 = setTime c (utcEpoch sc mn hr dy mt yr).toNat 0

/-- After the calendar form of `setTime`, with Offset 0, the getters give the date
and time back. -/
abbrev calendarReadBack (c : Clock) (sc mn hr dy mt yr : Int) : Prop :=
  getYear (setTimeCal c sc mn hr dy mt yr 0) 0 = some yr ∧
  getMonth (setTimeCal c sc mn hr dy mt yr 0) 0 = some (mt - 1) ∧
  getDay (setTimeCal c sc mn hr dy mt yr 0) 0 = some dy ∧
  getHour (setTimeCal c sc mn hr dy mt yr 0) 0 true = some hr ∧
  getMinute (setTimeCal c sc mn hr dy mt yr 0) 0 = some mn ∧
  getSecond (setTimeCal c sc mn hr dy mt yr 0) 0 = some sc

/-- What the calendar form of `setTime` promises for one date and time: the clock
is the one `setTime(E, 0)` stores for the UTC epoch `E` of the date, and the
getters give the date and time back. -/
abbrev calendarRoundTrip (c : Clock) (sc mn hr dy mt yr : Int) : Prop :=
  calendarStored c sc mn hr dy mt yr ∧ calendarReadBack c sc mn hr dy mt yr

/-! ## Statements about the offset, the weekday and sequences of calls -/

/-- The net effect the spec gives for the offset: `epoch += Offset`, a signed add. -/
def signedAdd (epoch offset : Int) : Int :=
  epoch + offset

/-- The reference the spec gives for `getTimeStruct`: the UTC calendar breakdown
of the raw seconds `r`, plus 63071999 when the overflow flag `f` is set, plus the
offset `o`, with 64 added to the year field when `f` is set and every other
field kept. -/
def referenceTimeStruct (r : Int) (f : Bool) (o : Int) : Tm :=
  let b := localtime (r + (if f then 63071999 else 0) + o)
  { tm_sec := b.tm_sec
    tm_min := b.tm_min
    tm_hour := b.tm_hour
    tm_mday := b.tm_mday
    tm_mon := b.tm_mon
    tm_year := b.tm_year + (if f then 64 else 0)
    tm_wday := b.tm_wday
    tm_yday := b.tm_yday
    tm_isdst := b.tm_isdst }

/-- Gregorian day of the week (0 = Sunday) of day `d` of month `m` (0..11) of
year `y`; 1970-01-01 was a Thursday. -/
def dayOfWeek (y m d : Int) : Int :=
  (daysFromCivil y m d + 4) % 7

/-- The day-of-week field of a broken-down time is the day of the week of the
date in its year, month and day-of-month fields. -/
abbrev weekdayConsistent (t : Tm) : Prop :=
  t.tm_wday = dayOfWeek (t.tm_year + 1900) t.tm_mon t.tm_mday

/-- One call of a function of the class that sets the clock. -/
inductive Call where
  | epochCall (epoch : Nat) (ms : Int)
  | calendarCall (sc mn hr dy mt yr ms : Int)
  | structCall (t : Tm)

/-- The `unsigned long` epoch that a call hands to `setTime(unsigned long, int)`. -/
def callEpoch : Call → Nat
  | Call.epochCall epoch _ => epoch
  | Call.calendarCall sc mn hr dy mt yr _ =>
      toULong (mktime { tm_sec := sc, tm_min := mn, tm_hour := hr, tm_mday := dy,
                        tm_mon := mt - 1, tm_year := yr - 1900, tm_wday := 0,
                        tm_yday := 0, tm_isdst := 0 })
  | Call.structCall t => toULong (mktime t)

/-- The clock after one call. -/
def applyCall (c : Clock) : Call → Clock
  | Call.epochCall epoch ms => setTime c epoch ms
  | Call.calendarCall sc mn hr dy mt yr ms => setTimeCal c sc mn hr dy mt yr ms
  | Call.structCall t => setTimeStruct c t

/-- The clock after a sequence of calls, from the state `c`. -/
def runCalls (c : Clock) (calls : List Call) : Clock :=
  calls.foldl applyCall c

/-! ## Calendar lemmas -/

/-- The year of the era of a day written as centuries, 4-year groups, years and days. -/
theorem erayearOf_staged (a b c doy : Int) (a0 : 0 ≤ a) (a1 : a ≤ 3) (b0 : 0 ≤ b)
    (b1 : b ≤ 24) (c0 : 0 ≤ c) (c1 : c ≤ 3) (d0 : 0 ≤ doy) (d1 : doy ≤ 365)
    (hl : doy = 365 → c = 3 ∧ (b ≠ 24 ∨ a = 3)) :
    erayearOf (a * 36524 + b * 1461 + c * 365 + doy) = 100 * a + 4 * b + c := by
  unfold erayearOf
  generalize hX : a * 36524 + b * 1461 + c * 365 + doy = X
  have h3 : X / 146096 = (if X = 146096 then 1 else 0) := by split <;> omega
  have h2 : X / 36524 = (if X = 146096 then a + 1 else a) := by split <;> omega
  have h1 : X / 1460 = 25 * a + b + (if 24 * a + b + 365 * c + doy ≥ 1460 then 1 else 0) := by
    split <;> omega
  rw [h1, h2, h3]
  split <;> split <;> omega

/-- Every day of the era splits into centuries, 4-year groups, years and days. -/
theorem eraday_split (doe : Int) (h0 : 0 ≤ doe) (h1 : doe < 146097) :
    ∃ a b c doy : Int, 0 ≤ a ∧ a ≤ 3 ∧ 0 ≤ b ∧ b ≤ 24 ∧ 0 ≤ c ∧ c ≤ 3 ∧ 0 ≤ doy ∧ doy ≤ 365 ∧
      (doy = 365 → c = 3 ∧ (b ≠ 24 ∨ a = 3)) ∧
      doe = a * 36524 + b * 1461 + c * 365 + doy := by
  refine ⟨min (doe / 36524) 3, (doe - min (doe / 36524) 3 * 36524) / 1461,
    min ((doe - min (doe / 36524) 3 * 36524) % 1461 / 365) 3,
    (doe - min (doe / 36524) 3 * 36524) % 1461
      - min ((doe - min (doe / 36524) 3 * 36524) % 1461 / 365) 3 * 365, ?_⟩
  omega

/-- Range of the year of the era and of the day of the year; day 365 only
exists when the civil year that follows is a leap year. -/
theorem erayear_spec (doe : Int) (h0 : 0 ≤ doe) (h1 : doe < 146097) :
    0 ≤ erayearOf doe ∧ erayearOf doe ≤ 399 ∧ 0 ≤ yeardayOf doe ∧ yeardayOf doe ≤ 365 ∧
    (yeardayOf doe = 365 →
      (erayearOf doe + 1) % 4 = 0 ∧ ((erayearOf doe + 1) % 100 ≠ 0 ∨ erayearOf doe = 399)) := by
  obtain ⟨a, b, c, doy, a0, a1, b0, b1, c0, c1, d0, d1, hl, rfl⟩ := eraday_split doe h0 h1
  have h := erayearOf_staged a b c doy a0 a1 b0 b1 c0 c1 d0 d1 hl
  have q4 : (100 * a + 4 * b + c) / 4 = 25 * a + b := by omega
  have q100 : (100 * a + 4 * b + c) / 100 = a := by omega
  unfold yeardayOf
  rw [h, q4, q100]
  omega

/-- The year of the era and the day of the year are recovered from the day of the era. -/
theorem erayearOf_recover (yoe doy : Int) (y0 : 0 ≤ yoe) (y1 : yoe ≤ 399) (d0 : 0 ≤ doy)
    (d1 : doy ≤ 365)
    (hl : doy = 365 → (yoe + 1) % 4 = 0 ∧ ((yoe + 1) % 100 ≠ 0 ∨ yoe = 399)) :
    erayearOf (yoe * 365 + yoe / 4 - yoe / 100 + doy) = yoe ∧
    yeardayOf (yoe * 365 + yoe / 4 - yoe / 100 + doy) = doy := by
  have h := erayearOf_staged (yoe / 100) (yoe % 100 / 4) (yoe % 4) doy (by omega) (by omega)
    (by omega) (by omega) (by omega) (by omega) d0 d1 (by omega)
  have e : yoe / 100 * 36524 + yoe % 100 / 4 * 1461 + yoe % 4 * 365 + doy
      = yoe * 365 + yoe / 4 - yoe / 100 + doy := by omega
  rw [e] at h
  have h2 : 100 * (yoe / 100) + 4 * (yoe % 100 / 4) + yoe % 4 = yoe := by omega
  rw [h2] at h
  refine ⟨h, ?_⟩
  unfold yeardayOf
  rw [h]
  omega

/-- The day count of the civil date found at a position in an era. -/
theorem daysFromCivil_era (era yoe doy : Int) (y0 : 0 ≤ yoe) (y1 : yoe ≤ 399)
    (d0 : 0 ≤ doy) (d1 : doy ≤ 365) :
    daysFromCivil (yoe + era * 400 + (if monthOf doy ≤ 1 then 1 else 0)) (monthOf doy)
      (mdayOf doy) = era * 146097 + (yoe * 365 + yoe / 4 - yoe / 100 + doy) - 719468 := by
  unfold daysFromCivil monthOf mdayOf
  have m0 : 0 ≤ (5 * doy + 2) / 153 := by omega
  have m1 : (5 * doy + 2) / 153 ≤ 11 := by omega
  generalize (5 * doy + 2) / 153 = mp at *
  have e1 : (yoe + era * 400) / 400 = era := by omega
  have e2 : (yoe + era * 400) % 400 = yoe := by omega
  by_cases hm : mp < 10
  · have hm1 : ¬ (mp + 2 ≤ 1) := by omega
    simp only [hm, hm1, if_true, if_false, add_zero, e1, e2]
    omega
  · have hm1 : mp - 10 ≤ 1 := by omega
    simp only [hm, hm1, if_true, if_false, add_sub_cancel_right, e1, e2]
    omega

/-- Fields of the broken-down time in terms of the helper functions. -/
theorem localtime_fields (t : Int) :
    (localtime t).tm_mon = monthOf (yeardayOf ((t / 86400 + 719468) % 146097)) ∧
    (localtime t).tm_mday = mdayOf (yeardayOf ((t / 86400 + 719468) % 146097)) ∧
    (localtime t).tm_year = erayearOf ((t / 86400 + 719468) % 146097)
      + (t / 86400 + 719468) / 146097 * 400
      + (if monthOf (yeardayOf ((t / 86400 + 719468) % 146097)) ≤ 1 then 1 else 0) - 1900 ∧
    (localtime t).tm_hour = t % 86400 / 3600 ∧
    (localtime t).tm_min = t % 86400 % 3600 / 60 ∧
    (localtime t).tm_sec = t % 86400 % 60 :=
  ⟨rfl, rfl, rfl, rfl, rfl, rfl⟩

/-- Month range of a broken-down time. -/
theorem monthOf_range (doy : Int) (d0 : 0 ≤ doy) (d1 : doy ≤ 365) :
    0 ≤ monthOf doy ∧ monthOf doy ≤ 11 := by
  unfold monthOf
  split <;> omega

/-- The day count of the date of a broken-down time. -/
theorem daysFromCivil_localtime (t : Int) :
    daysFromCivil ((localtime t).tm_year + 1900) (localtime t).tm_mon (localtime t).tm_mday
      = t / 86400 := by
  obtain ⟨hmon, hday, hyear, -, -, -⟩ := localtime_fields t
  have hd0 : 0 ≤ (t / 86400 + 719468) % 146097 := by omega
  have hd1 : (t / 86400 + 719468) % 146097 < 146097 := by omega
  obtain ⟨y0, y1, d0, d1, -⟩ := erayear_spec _ hd0 hd1
  rw [hmon, hday, hyear, sub_add_cancel, daysFromCivil_era _ _ _ y0 y1 d0 d1]
  unfold yeardayOf
  omega

/-- Converting a broken-down UTC time back gives the seconds it came from. -/
theorem mktime_localtime (t : Int) : mktime (localtime t) = t := by
  have hd := daysFromCivil_localtime t
  obtain ⟨hmon, -, -, hh, hmi, hs⟩ := localtime_fields t
  have hd0 : 0 ≤ (t / 86400 + 719468) % 146097 := by omega
  have hd1 : (t / 86400 + 719468) % 146097 < 146097 := by omega
  obtain ⟨-, -, d0, d1, -⟩ := erayear_spec _ hd0 hd1
  have hm := monthOf_range _ d0 d1
  rw [← hmon] at hm
  unfold mktime
  dsimp only
  generalize (localtime t).tm_year + 1900 = y at *
  generalize (localtime t).tm_mon = m at *
  have e1 : (y * 12 + m) / 12 = y := by omega
  have e2 : (y * 12 + m) % 12 = m := by omega
  rw [e1, e2, hd, hh, hmi, hs]
  omega


/-- The leap-year test as a proposition. -/
theorem isLeap_iff (y : Int) :
    isLeap y = true ↔ y % 4 = 0 ∧ (y % 100 ≠ 0 ∨ y % 400 = 0) := by
  simp [isLeap]

/-- The day of the March-based year of a valid civil date, and what it gives back. -/
theorem yearday_valid (y m d : Int) (m0 : 0 ≤ m) (m1 : m ≤ 11) (d0 : 1 ≤ d)
    (d1 : d ≤ daysInMonth y (m + 1)) :
    0 ≤ (153 * (if m ≤ 1 then m + 10 else m - 2) + 2) / 5 + d - 1 ∧
    (153 * (if m ≤ 1 then m + 10 else m - 2) + 2) / 5 + d - 1 ≤ 365 ∧
    ((153 * (if m ≤ 1 then m + 10 else m - 2) + 2) / 5 + d - 1 = 365 →
      m = 1 ∧ isLeap y = true) ∧
    monthOf ((153 * (if m ≤ 1 then m + 10 else m - 2) + 2) / 5 + d - 1) = m ∧
    mdayOf ((153 * (if m ≤ 1 then m + 10 else m - 2) + 2) / 5 + d - 1) = d := by
  have hm : m = 0 ∨ m = 1 ∨ m = 2 ∨ m = 3 ∨ m = 4 ∨ m = 5 ∨ m = 6 ∨ m = 7 ∨ m = 8 ∨ m = 9
      ∨ m = 10 ∨ m = 11 := by omega
  unfold monthOf mdayOf
  rcases hm with h | h | h | h | h | h | h | h | h | h | h | h <;> subst h <;>
    simp [daysInMonth] at d1 ⊢ <;> (try split at d1) <;> (try simp_all) <;>
    (try split) <;> omega


/-- Breaking down the seconds of a valid civil date and time of day gives that
date and time back (month 0..11). -/
theorem localtime_civil (y m d h mi sc : Int) (m0 : 0 ≤ m) (m1 : m ≤ 11) (d0 : 1 ≤ d)
    (d1 : d ≤ daysInMonth y (m + 1)) (h0 : 0 ≤ h) (h1 : h ≤ 23) (mi0 : 0 ≤ mi)
    (mi1 : mi ≤ 59) (s0 : 0 ≤ sc) (s1 : sc ≤ 59) :
    (localtime (daysFromCivil y m d * 86400 + h * 3600 + mi * 60 + sc)).tm_year = y - 1900 ∧
    (localtime (daysFromCivil y m d * 86400 + h * 3600 + mi * 60 + sc)).tm_mon = m ∧
    (localtime (daysFromCivil y m d * 86400 + h * 3600 + mi * 60 + sc)).tm_mday = d ∧
    (localtime (daysFromCivil y m d * 86400 + h * 3600 + mi * 60 + sc)).tm_hour = h ∧
    (localtime (daysFromCivil y m d * 86400 + h * 3600 + mi * 60 + sc)).tm_min = mi ∧
    (localtime (daysFromCivil y m d * 86400 + h * 3600 + mi * 60 + sc)).tm_sec = sc := by
  obtain ⟨hmon, hday, hyear, hh, hmi, hs⟩ :=
    localtime_fields (daysFromCivil y m d * 86400 + h * 3600 + mi * 60 + sc)
  obtain ⟨yd0, yd1, ydl, ymon, yday⟩ := yearday_valid y m d m0 m1 d0 d1
  have hl := isLeap_iff y
  have eq : (daysFromCivil y m d * 86400 + h * 3600 + mi * 60 + sc) / 86400
      = daysFromCivil y m d := by omega
  have er : (daysFromCivil y m d * 86400 + h * 3600 + mi * 60 + sc) % 86400
      = h * 3600 + mi * 60 + sc := by omega
  rw [eq] at hmon hday hyear
  rw [er] at hh hmi hs
  have hD : daysFromCivil y m d = (if m ≤ 1 then y - 1 else y) / 400 * 146097
      + ((if m ≤ 1 then y - 1 else y) % 400 * 365 + (if m ≤ 1 then y - 1 else y) % 400 / 4
         - (if m ≤ 1 then y - 1 else y) % 400 / 100
         + ((153 * (if m ≤ 1 then m + 10 else m - 2) + 2) / 5 + d - 1)) - 719468 := by
    unfold daysFromCivil
    dsimp only
  generalize (153 * (if m ≤ 1 then m + 10 else m - 2) + 2) / 5 + d - 1 = doy at *
  have hy1 : (if m ≤ 1 then y - 1 else y) = y - (if m ≤ 1 then 1 else 0) := by
    split <;> omega
  rw [hy1] at hD
  generalize hy : y - (if m ≤ 1 then 1 else 0) = y1 at *
  have yo0 : 0 ≤ y1 % 400 := by omega
  have yo1 : y1 % 400 ≤ 399 := by omega
  have hleap : doy = 365 → (y1 % 400 + 1) % 4 = 0 ∧ ((y1 % 400 + 1) % 100 ≠ 0 ∨ y1 % 400 = 399) := by
    intro h365
    obtain ⟨hm1, hlp⟩ := ydl h365
    have := hl.mp hlp
    subst hm1
    simp only [show (1 : Int) ≤ 1 from le_refl _, if_true] at hy
    omega
  obtain ⟨r1, r2⟩ := erayearOf_recover (y1 % 400) doy yo0 yo1 yd0 yd1 hleap
  generalize hdoe : y1 % 400 * 365 + y1 % 400 / 4 - y1 % 400 / 100 + doy = doe at *
  have doe0 : 0 ≤ doe := by omega
  have doe1 : doe < 146097 := by omega
  have eD : (daysFromCivil y m d + 719468) % 146097 = doe := by omega
  have eE : (daysFromCivil y m d + 719468) / 146097 = y1 / 400 := by omega
  rw [eD, r2, ymon] at hmon
  rw [eD, r2, yday] at hday
  rw [eD, eE, r1, r2, ymon] at hyear
  refine ⟨?_, hmon, hday, ?_, ?_, ?_⟩
  · rw [hyear]; omega
  · rw [hh]; omega
  · rw [hmi]; omega
  · rw [hs]; omega


/-- Days up to 1 March of a year and of the year 64 later. -/
theorem marchYear_add64 (y1 : Int) (h0 : 1900 ≤ y1) (h1 : y1 ≤ 2135) :
    (y1 + 64) / 400 * 146097
        + ((y1 + 64) % 400 * 365 + (y1 + 64) % 400 / 4 - (y1 + 64) % 400 / 100)
      = y1 / 400 * 146097 + (y1 % 400 * 365 + y1 % 400 / 4 - y1 % 400 / 100)
        + (if 2036 ≤ y1 ∧ y1 ≤ 2099 then 23375 else 23376) := by
  by_cases c1 : y1 < 2000
  · have a1 : y1 / 400 = 4 := by omega
    have r1 : y1 % 400 = y1 - 1600 := by omega
    by_cases c2 : y1 + 64 < 2000
    · have a2 : (y1 + 64) / 400 = 4 := by omega
      have r2 : (y1 + 64) % 400 = y1 - 1536 := by omega
      rw [a1, a2, r1, r2]; split <;> omega
    · have a2 : (y1 + 64) / 400 = 5 := by omega
      have r2 : (y1 + 64) % 400 = y1 - 1936 := by omega
      rw [a1, a2, r1, r2]; split <;> omega
  · have a1 : y1 / 400 = 5 := by omega
    have a2 : (y1 + 64) / 400 = 5 := by omega
    have r1 : y1 % 400 = y1 - 2000 := by omega
    have r2 : (y1 + 64) % 400 = y1 - 1936 := by omega
    rw [a1, a2, r1, r2]; split <;> omega

/-- Adding 64 to the year moves a date by 23376 days, except by 23375 days when
the March-based year is within 2036..2099 (2100 is not a leap year). -/
theorem daysFromCivil_add64 (y m d : Int) (hy0 : 1900 ≤ y - (if m ≤ 1 then 1 else 0))
    (hy1 : y - (if m ≤ 1 then 1 else 0) ≤ 2135) :
    daysFromCivil (y + 64) m d = daysFromCivil y m d
      + (if 2036 ≤ y - (if m ≤ 1 then 1 else 0) ∧ y - (if m ≤ 1 then 1 else 0) ≤ 2099
         then 23375 else 23376) := by
  unfold daysFromCivil
  dsimp only
  have e : (if m ≤ 1 then y + 64 - 1 else y + 64) = (y - (if m ≤ 1 then 1 else 0)) + 64 := by
    split <;> omega
  have e2 : (if m ≤ 1 then y - 1 else y) = y - (if m ≤ 1 then 1 else 0) := by
    split <;> omega
  rw [e, e2]
  have h := marchYear_add64 _ hy0 hy1
  omega

/-- The position in its era of the day of a broken-down time. -/
theorem localtime_era (t : Int) :
    ∃ era yoe doy : Int, 0 ≤ yoe ∧ yoe ≤ 399 ∧ 0 ≤ doy ∧ doy ≤ 365 ∧
      (doy = 365 → (yoe + 1) % 4 = 0 ∧ ((yoe + 1) % 100 ≠ 0 ∨ yoe = 399)) ∧
      t / 86400 + 719468 = era * 146097 + (yoe * 365 + yoe / 4 - yoe / 100 + doy) ∧
      (localtime t).tm_mon = monthOf doy ∧
      (localtime t).tm_year + 1900 = yoe + era * 400 + (if monthOf doy ≤ 1 then 1 else 0) := by
  obtain ⟨hmon, -, hyear, -, -, -⟩ := localtime_fields t
  have hd0 : 0 ≤ (t / 86400 + 719468) % 146097 := by omega
  have hd1 : (t / 86400 + 719468) % 146097 < 146097 := by omega
  obtain ⟨y0, y1, d0, d1, hl⟩ := erayear_spec _ hd0 hd1
  refine ⟨(t / 86400 + 719468) / 146097, erayearOf ((t / 86400 + 719468) % 146097),
    yeardayOf ((t / 86400 + 719468) % 146097), y0, y1, d0, d1, hl, ?_, hmon, ?_⟩
  · unfold yeardayOf
    omega
  · rw [hyear]; omega

/-- The month field of a broken-down time is in 0..11. -/
theorem localtime_mon_range (t : Int) :
    0 ≤ (localtime t).tm_mon ∧ (localtime t).tm_mon ≤ 11 := by
  obtain ⟨era, yoe, doy, -, -, d0, d1, -, -, hmon, -⟩ := localtime_era t
  rw [hmon]
  exact monthOf_range doy d0 d1

/-- The March-based year of a broken-down time, bounded by the seconds. -/
theorem localtime_marchYear (t : Int) :
    (-2203891200 ≤ t → 1900 ≤ (localtime t).tm_year + 1900
        - (if (localtime t).tm_mon ≤ 1 then 1 else 0)) ∧
    (t < 2087942400 → (localtime t).tm_year + 1900
        - (if (localtime t).tm_mon ≤ 1 then 1 else 0) ≤ 2035) ∧
    (2087942400 ≤ t → 2036 ≤ (localtime t).tm_year + 1900
        - (if (localtime t).tm_mon ≤ 1 then 1 else 0)) ∧
    (t < 4107542400 → (localtime t).tm_year + 1900
        - (if (localtime t).tm_mon ≤ 1 then 1 else 0) ≤ 2099) ∧
    (4107542400 ≤ t → 2100 ≤ (localtime t).tm_year + 1900
        - (if (localtime t).tm_mon ≤ 1 then 1 else 0)) ∧
    (t < 5243616000 → (localtime t).tm_year + 1900
        - (if (localtime t).tm_mon ≤ 1 then 1 else 0) ≤ 2135) := by
  obtain ⟨era, yoe, doy, y0, y1, d0, d1, hl, hD, hmon, hyear⟩ := localtime_era t
  rw [hyear, hmon]
  have e : yoe + era * 400 + (if monthOf doy ≤ 1 then 1 else 0)
      - (if monthOf doy ≤ 1 then 1 else 0) = yoe + era * 400 := by omega
  rw [e]
  have hD1 : -2203891200 ≤ t → -25508 ≤ t / 86400 := by intro h; omega
  have hD2 : t < 2087942400 → t / 86400 < 24166 := by intro h; omega
  have hD3 : 2087942400 ≤ t → 24166 ≤ t / 86400 := by intro h; omega
  have hD4 : t < 4107542400 → t / 86400 < 47541 := by intro h; omega
  have hD5 : 4107542400 ≤ t → 47541 ≤ t / 86400 := by intro h; omega
  have hD6 : t < 5243616000 → t / 86400 < 60690 := by intro h; omega
  generalize t / 86400 = D at *
  have hc : yoe / 100 = 0 ∨ yoe / 100 = 1 ∨ yoe / 100 = 2 ∨ yoe / 100 = 3 := by omega
  have he : era ≤ 3 ∨ era = 4 ∨ era = 5 ∨ 6 ≤ era := by omega
  refine ⟨?_, ?_, ?_, ?_, ?_, ?_⟩ <;> intro h <;>
    rcases he with he | he | he | he <;> rcases hc with hc | hc | hc | hc <;> omega

/-- Seconds of a broken-down time whose year field was raised by 64. -/
theorem mktime_year64 (t : Int) (h0 : -2203891200 ≤ t) (h1 : t < 5243616000) :
    mktime { localtime t with tm_year := (localtime t).tm_year + 64 }
      = t + (if 2087942400 ≤ t ∧ t < 4107542400 then 2019600000 else 2019686400) := by
  have hrt := mktime_localtime t
  obtain ⟨b1, b2, b3, b4, b5, b6⟩ := localtime_marchYear t
  have hm := localtime_mon_range t
  have hs := daysFromCivil_add64 ((localtime t).tm_year + 1900) (localtime t).tm_mon
    (localtime t).tm_mday (b1 h0) (b6 h1)
  unfold mktime at hrt ⊢
  dsimp only at hrt ⊢
  generalize (localtime t).tm_year = y at *
  generalize (localtime t).tm_mon = m at *
  have e1 : ((y + 1900) * 12 + m) / 12 = y + 1900 := by omega
  have e2 : ((y + 1900) * 12 + m) % 12 = m := by omega
  have e3 : ((y + 64 + 1900) * 12 + m) / 12 = y + 1900 + 64 := by omega
  have e4 : ((y + 64 + 1900) * 12 + m) % 12 = m := by omega
  rw [e1, e2] at hrt
  rw [e3, e4, hs]
  by_cases c : 2087942400 ≤ t ∧ t < 4107542400
  · have c1 := b3 c.1
    have c2 := b4 c.2
    simp only [c, c1, c2, and_self, if_true]
    omega
  · have c3 : ¬ (2036 ≤ y + 1900 - (if m ≤ 1 then 1 else 0)
        ∧ y + 1900 - (if m ≤ 1 then 1 else 0) ≤ 2099) := by
      intro hc
      by_cases c4 : 2087942400 ≤ t
      · have := b5 (by omega); omega
      · have := b2 (by omega); omega
    simp only [c, c3, if_false]
    omega

/-- A broken-down time from the position of its day in the era. -/
theorem localtime_of_era (t era yoe doy : Int) (y0 : 0 ≤ yoe) (y1 : yoe ≤ 399)
    (d0 : 0 ≤ doy) (d1 : doy ≤ 365)
    (hl : doy = 365 → (yoe + 1) % 4 = 0 ∧ ((yoe + 1) % 100 ≠ 0 ∨ yoe = 399))
    (hD : t / 86400 + 719468 = era * 146097 + (yoe * 365 + yoe / 4 - yoe / 100 + doy)) :
    (localtime t).tm_mon = monthOf doy ∧ (localtime t).tm_mday = mdayOf doy ∧
    (localtime t).tm_year + 1900 = yoe + era * 400 + (if monthOf doy ≤ 1 then 1 else 0) := by
  obtain ⟨hmon, hday, hyear, -, -, -⟩ := localtime_fields t
  obtain ⟨r1, r2⟩ := erayearOf_recover yoe doy y0 y1 d0 d1 hl
  have doe0 : 0 ≤ yoe * 365 + yoe / 4 - yoe / 100 + doy := by omega
  have doe1 : yoe * 365 + yoe / 4 - yoe / 100 + doy < 146097 := by omega
  rw [hD] at hmon hday hyear
  generalize yoe * 365 + yoe / 4 - yoe / 100 + doy = doe at *
  have eD : (era * 146097 + doe) % 146097 = doe := by omega
  have eE : (era * 146097 + doe) / 146097 = era := by omega
  rw [eD, r2] at hmon hday
  rw [eD, eE, r1, r2] at hyear
  refine ⟨hmon, hday, ?_⟩
  rw [hyear]; omega

/-- Raising the year field by 64 gives the date and time of day found 23376
days later, for every instant from 1900-03-01 up to the end of 2036-02-28. -/
theorem localtime_year64 (t : Int) (h0 : -2203891200 ≤ t) (h1 : t < 2087856000) :
    sameDateTime { localtime t with tm_year := (localtime t).tm_year + 64 }
      (localtime (t + 2019686400)) := by
  obtain ⟨era, yoe, doy, y0, y1, d0, d1, hl, hD, hmon, hyear⟩ := localtime_era t
  obtain ⟨hmon0, hday0, -, hh0, hmi0, hs0⟩ := localtime_fields t
  obtain ⟨-, -, -, hh1, hmi1, hs1⟩ := localtime_fields (t + 2019686400)
  obtain ⟨b1, b2, -, -, -, -⟩ := localtime_marchYear t
  have c1 := b1 h0
  have c2 := b2 (by omega)
  rw [hyear, hmon] at c1 c2
  have hq : (t + 2019686400) / 86400 = t / 86400 + 23376 := by omega
  have hr : (t + 2019686400) % 86400 = t % 86400 := by omega
  have hY0 : 1900 ≤ yoe + era * 400 := by omega
  have hY1 : yoe + era * 400 ≤ 2035 := by omega
  have hsh := marchYear_add64 (yoe + era * 400) hY0 (by omega)
  have e1 : (yoe + era * 400) / 400 = era := by omega
  have e2 : (yoe + era * 400) % 400 = yoe := by omega
  have e3 : ¬ (2036 ≤ yoe + era * 400 ∧ yoe + era * 400 ≤ 2099) := by omega
  rw [e1, e2] at hsh
  simp only [e3, if_false] at hsh
  have hlast : yoe + era * 400 = 2035 → doy ≤ 364 := by
    intro h
    have : era = 5 := by omega
    subst this
    have : yoe = 35 := by omega
    subst this
    omega
  have hl2 : doy = 365 → ((yoe + era * 400 + 64) % 400 + 1) % 4 = 0 ∧
      (((yoe + era * 400 + 64) % 400 + 1) % 100 ≠ 0 ∨ (yoe + era * 400 + 64) % 400 = 399) := by
    intro h
    have := hl h
    omega
  obtain ⟨m2, d2, y2⟩ := localtime_of_era (t + 2019686400) ((yoe + era * 400 + 64) / 400)
    ((yoe + era * 400 + 64) % 400) doy (by omega) (by omega) d0 d1 hl2 (by rw [hq]; omega)
  have hd3 := (localtime_of_era t era yoe doy y0 y1 d0 d1 hl hD).2.1
  refine ⟨?_, ?_, ?_, ?_, ?_, ?_⟩
  · show (localtime t).tm_year + 64 = _
    omega
  · show (localtime t).tm_mon = _
    rw [hmon, m2]
  · show (localtime t).tm_mday = _
    rw [hd3, d2]
  · show (localtime t).tm_hour = _
    rw [hh0, hh1, hr]
  · show (localtime t).tm_min = _
    rw [hmi0, hmi1, hr]
  · show (localtime t).tm_sec = _
    rw [hs0, hs1, hr]

/-! ## The clock operations -/

/-- Conversion to `unsigned long` as an integer remainder. -/
theorem toULong_cast (x : Int) : ((toULong x : Nat) : Int) = x % 4294967296 := by
  unfold toULong
  omega

/-- An `unsigned long` value converts to itself. -/
theorem toULong_natCast (n : Nat) (h : n < 4294967296) : toULong (n : Int) = n := by
  unfold toULong
  omega

/-- The negation `offset * -1` has a result for every `long` but the most negative. -/
theorem mulLong_neg (o : Int) (h0 : -2147483647 ≤ o) (h1 : o ≤ 2147483647) :
    mulLong o (-1) = some (-o) := by
  unfold mulLong
  have h : -2147483648 ≤ o * -1 ∧ o * -1 ≤ 2147483647 := by omega
  rw [if_pos h]
  congr 1
  omega

/-- The negation of the most negative `long` overflows. -/
theorem mulLong_neg_min : mulLong (-2147483648) (-1) = none := by
  decide

/-- The two branches that apply the `long` offset add it as a signed number, for
every `long` but the most negative. -/
theorem applyOffset_eq (tt o : Int) (h0 : -2147483647 ≤ o) (h1 : o ≤ 2147483647) :
    applyOffset tt o = some (tt + o) := by
  unfold applyOffset
  by_cases h : o > 0
  · rw [if_pos h, toULong_cast]
    congr 1
    omega
  · rw [if_neg h, mulLong_neg o h0 h1]
    show some (tt - ((toULong (-o) : Nat) : Int)) = some (tt + o)
    rw [toULong_cast]
    congr 1
    omega

/-- At the most negative `long` the offset branch has no defined result. -/
theorem applyOffset_min (tt : Int) : applyOffset tt (-2147483648) = none := by
  unfold applyOffset
  rw [if_neg (by decide), mulLong_neg_min]

/-- What `getTimeStruct` computes from the clock and the offset. -/
theorem getTimeStruct_eq (c : Clock) (o : Int) (h0 : -2147483647 ≤ o) (h1 : o ≤ 2147483647) :
    getTimeStruct c o =
      some (if c.overflow then
        { localtime (c.tv_sec + 63071999 + o) with
          tm_year := (localtime (c.tv_sec + 63071999 + o)).tm_year + 64 }
      else localtime (c.tv_sec + o)) := by
  unfold getTimeStruct
  dsimp only
  rw [applyOffset_eq _ o h0 h1, mktime_localtime]
  cases c.overflow <;> simp

/-- With the most negative `long` as offset `getTimeStruct` has no defined result. -/
theorem getTimeStruct_min (c : Clock) : getTimeStruct c (-2147483648) = none := by
  unfold getTimeStruct
  dsimp only
  rw [applyOffset_min]

/-- The clock after `setTime`. -/
theorem setTime_eq (c : Clock) (e : Nat) (ms : Int) :
    setTime c e ms =
      { overflow := decide (2082758399 < e),
        tv_sec := if 2082758399 < e then (e : Int) - 2082758399 else (e : Int),
        tv_usec := ms } := by
  unfold setTime
  split
  · rename_i h
    simp only [h, decide_True, if_true]
    congr 1
    omega
  · rename_i h
    simp [h]

/-- The epoch read back after `setTime`, for any offset but the most negative
`long`: past the threshold it is one day behind from 2100-03-02 up to
2164-03-02. -/
theorem getEpoch_setTime (c : Clock) (e : Nat) (ms o : Int) (he : e < 4294967296)
    (h0 : -2147483647 ≤ o) (h1 : o ≤ 2147483647) :
    getEpoch (setTime c e ms) o =
      some (toULong ((e : Int) + o - (if 2082758399 < e ∧ 4107628800 ≤ (e : Int) + o
          ∧ (e : Int) + o < 6127228800 then 86400 else 0))) := by
  unfold getEpoch
  rw [getTimeStruct_eq _ o h0 h1, setTime_eq, Option.map_some']
  congr 1
  by_cases h : 2082758399 < e
  · simp only [h, decide_True, if_true, true_and]
    rw [mktime_year64 _ (by omega) (by omega)]
    congr 1
    split <;> split <;> omega
  · simp only [h, decide_False, Bool.false_eq_true, if_false, false_and]
    rw [mktime_localtime]
    simp

/-- The date and time read back after `setTime` before 2100-03-01. -/
theorem getTimeStruct_setTime (c : Clock) (e : Nat) (ms : Int) (he : e < 4107542400) :
    ∃ t, getTimeStruct (setTime c e ms) 0 = some t ∧ sameDateTime t (localtime e) := by
  rw [getTimeStruct_eq _ 0 (by omega) (by omega), setTime_eq]
  refine ⟨_, rfl, ?_⟩
  by_cases h : 2082758399 < e
  · simp only [h, decide_True, if_true]
    have := localtime_year64 ((e : Int) - 2082758399 + 63071999 + 0) (by omega) (by omega)
    have e2 : (e : Int) - 2082758399 + 63071999 + 0 + 2019686400 = (e : Int) := by omega
    rw [e2] at this
    exact this
  · simp only [h, decide_False, Bool.false_eq_true, if_false, add_zero]
    exact ⟨rfl, rfl, rfl, rfl, rfl, rfl⟩

/-- No day from 1970-01-01 on has a negative day count. -/
theorem daysFromCivil_nonneg (y m d : Int) (hy : 1970 ≤ y) (m0 : 0 ≤ m) (m1 : m ≤ 11)
    (d0 : 1 ≤ d) : 0 ≤ daysFromCivil y m d := by
  unfold daysFromCivil
  dsimp only
  have e2 : (if m ≤ 1 then y - 1 else y) = y - (if m ≤ 1 then 1 else 0) := by
    split <;> omega
  rw [e2]
  have hmp : ((if m ≤ 1 then (1 : Int) else 0) = 1
        ∧ 306 ≤ (153 * (if m ≤ 1 then m + 10 else m - 2) + 2) / 5)
      ∨ ((if m ≤ 1 then (1 : Int) else 0) = 0
        ∧ 0 ≤ (153 * (if m ≤ 1 then m + 10 else m - 2) + 2) / 5) := by
    split <;> omega
  generalize (153 * (if m ≤ 1 then m + 10 else m - 2) + 2) / 5 = dm at *
  generalize (if m ≤ 1 then (1 : Int) else 0) = b at *
  generalize hy1 : y - b = y1
  have he : y1 / 400 = 4 ∨ 5 ≤ y1 / 400 := by omega
  rcases he with he | he
  · have : y1 % 400 = y1 - 1600 := by omega
    rw [he, this]
    omega
  · omega

/-- The seconds `mktime` computes for a date whose month is in range. -/
theorem mktime_utcEpoch (sc mn hr dy mt yr w yd dst : Int) (m0 : 1 ≤ mt) (m1 : mt ≤ 12) :
    mktime { tm_sec := sc, tm_min := mn, tm_hour := hr, tm_mday := dy, tm_mon := mt - 1,
             tm_year := yr - 1900, tm_wday := w, tm_yday := yd, tm_isdst := dst }
      = utcEpoch sc mn hr dy mt yr := by
  unfold mktime utcEpoch
  dsimp only
  have e1 : ((yr - 1900 + 1900) * 12 + (mt - 1)) / 12 = yr := by omega
  have e2 : ((yr - 1900 + 1900) * 12 + (mt - 1)) % 12 = mt - 1 := by omega
  rw [e1, e2]

/-- The clock the calendar form of `setTime` stores for a month in 1..12. -/
theorem setTimeCal_eq (c : Clock) (sc mn hr dy mt yr ms : Int) (m0 : 1 ≤ mt) (m1 : mt ≤ 12) :
    setTimeCal c sc mn hr dy mt yr ms = setTime c (toULong (utcEpoch sc mn hr dy mt yr)) ms := by
  unfold setTimeCal
  dsimp only
  rw [mktime_utcEpoch _ _ _ _ _ _ _ _ _ m0 m1]

/-! ## Claims -/

/-- C1: round trip below the threshold. For every epoch `e` with
`0 ≤ e ≤ 2082758399`, on an instance with Offset 0 and the calendar conversion
in UTC, `setTime(e, 0)` followed by `getEpoch()` returns exactly `e`. -/
theorem setTime_getEpoch_roundTrip (c : Clock) (e : Nat) (h : e ≤ 2082758399) :
    getEpoch (setTime c e 0) 0 = some e := by
  rw [getEpoch_setTime c e 0 0 (by omega) (by omega) (by omega)]
  congr 1
  have h2 : ¬ (2082758399 < e ∧ 4107628800 ≤ (e : Int) + 0 ∧ (e : Int) + 0 < 6127228800) := by
    omega
  rw [if_neg h2]
  have := toULong_cast ((e : Int) + 0 - 0)
  omega

/-- C1 at the default epoch of `setTime`, 1609459200 (2021-01-01). -/
theorem setTime_getEpoch_roundTrip_witness :
    1609459200 ≤ 2082758399 ∧
    getEpoch (setTime ⟨false, 0, 0⟩ 1609459200 0) 0 = some 1609459200 :=
  ⟨by decide, setTime_getEpoch_roundTrip ⟨false, 0, 0⟩ 1609459200 (by decide)⟩

/-- C2 as stated fails: at `e = 4107542400` (2100-03-01T00:00:00Z, inside the
`unsigned long` range) the struct read back shows 29 February 2100, not 1 March. -/
theorem overflow_transparent_fails :
    ¬ ∀ (c : Clock) (e : Nat), 2082758399 < e → e ≤ 4294967295 →
      ∃ t, getTimeStruct (setTime c e 0) 0 = some t ∧ sameDateTime t (localtime e) := by
  intro h
  obtain ⟨t, ht, hs⟩ := h ⟨false, 0, 0⟩ 4107542400 (by decide) (by decide)
  have hv : getTimeStruct (setTime ⟨false, 0, 0⟩ 4107542400 0) 0
      = some { tm_sec := 0, tm_min := 0, tm_hour := 0, tm_mday := 29, tm_mon := 1,
               tm_year := 200, tm_wday := 5, tm_yday := 59, tm_isdst := 0 } := by
    decide
  rw [hv] at ht
  cases ht
  revert hs
  decide

/-- C2 (amended): for every epoch `e` with `2082758399 < e < 4107542400`
(before 2100-03-01T00:00:00Z), on an instance with Offset 0, the struct returned
by `getTimeStruct()` after `setTime(e, 0)` has the same year, month, day of
month, hour, minute and second as the UTC Gregorian calendar breakdown of `e`. -/
theorem overflow_transparent (c : Clock) (e : Nat) (h0 : 2082758399 < e)
    (h1 : e < 4107542400) :
    (setTime c e 0).overflow = true ∧
    ∃ t, getTimeStruct (setTime c e 0) 0 = some t ∧ sameDateTime t (localtime e) := by
  refine ⟨?_, getTimeStruct_setTime c e 0 h1⟩
  rw [setTime_eq]
  simp [h0]

/-- C2 (amended) at the last second it covers, 2100-02-28T23:59:59Z. -/
theorem overflow_transparent_witness :
    (2082758399 < 4107542399 ∧ 4107542399 < 4107542400) ∧
    (setTime ⟨false, 0, 0⟩ 4107542399 0).overflow = true ∧
    ∃ t, getTimeStruct (setTime ⟨false, 0, 0⟩ 4107542399 0) 0 = some t ∧
      sameDateTime t (localtime (4107542399 : Nat)) :=
  ⟨by decide, overflow_transparent ⟨false, 0, 0⟩ 4107542399 (by decide) (by decide)⟩

/-- C4: postcondition of `setTime(epoch, microseconds)`. For every unsigned epoch
and every microseconds value, after the call the overflow flag is true exactly
when `epoch > 2082758399`, the seconds written are `epoch - 2082758399` when the
flag is true and `epoch` otherwise, the sub-second field is the microseconds
argument unchanged, and the result does not depend on the previous state. -/
theorem setTime_postcondition (c c' : Clock) (epoch : Nat) (us : Int) :
    ((setTime c epoch us).overflow = true ↔ 2082758399 < epoch) ∧
    (setTime c epoch us).tv_sec
      = (if (setTime c epoch us).overflow then (epoch : Int) - 2082758399 else (epoch : Int)) ∧
    (setTime c epoch us).tv_usec = us ∧
    setTime c epoch us = setTime c' epoch us := by
  rw [setTime_eq c, setTime_eq c']
  by_cases h : 2082758399 < epoch <;> simp [h]

/-- C5: `getLocalEpoch()` undoes `setTime` regardless of the offset. It returns
the raw seconds of the clock, plus `63071999 + 2019686400` when the overflow
flag is true (as an `unsigned long`, so modulo `2 ^ 32`), it never reads the
offset, and for every unsigned epoch `e`, microseconds value and offset,
`setTime(e, us)` followed by `getLocalEpoch()` returns `e`. -/
theorem getLocalEpoch_undoes_setTime (c : Clock) (o o' : Int) (e : Nat) (us : Int)
    (he : e < 4294967296) :
    ((getLocalEpoch c o : Nat) : Int)
      = (c.tv_sec + (if c.overflow then 63071999 + 2019686400 else 0)) % 4294967296 ∧
    getLocalEpoch c o = getLocalEpoch c o' ∧
    getLocalEpoch (setTime c e us) o = e := by
  refine ⟨?_, rfl, ?_⟩
  · unfold getLocalEpoch ULONG_MOD
    dsimp only
    cases c.overflow
    · simp only [Bool.false_eq_true, if_false, add_zero]
      exact toULong_cast _
    · simp only [if_true]
      have := toULong_cast c.tv_sec
      omega
  · rw [setTime_eq]
    unfold getLocalEpoch ULONG_MOD
    dsimp only
    by_cases h : 2082758399 < e
    · simp only [h, decide_True, if_true]
      have := toULong_cast ((e : Int) - 2082758399)
      omega
    · simp only [h, decide_False, Bool.false_eq_true, if_false]
      exact toULong_natCast e he

/-- C5 at the largest `unsigned long` epoch, with a nonzero offset and
microseconds value. -/
theorem getLocalEpoch_undoes_setTime_witness :
    (4294967295 : Nat) < 4294967296 ∧
    (((getLocalEpoch ⟨true, 10, 7⟩ 3600 : Nat) : Int)
      = ((10 : Int) + (if true then 63071999 + 2019686400 else 0)) % 4294967296 ∧
     getLocalEpoch ⟨true, 10, 7⟩ 3600 = getLocalEpoch ⟨true, 10, 7⟩ (-5) ∧
     getLocalEpoch (setTime ⟨true, 10, 7⟩ 4294967295 999999) 3600 = 4294967295) :=
  ⟨by decide, getLocalEpoch_undoes_setTime ⟨true, 10, 7⟩ 3600 (-5) 4294967295 999999
    (by decide)⟩

/-- C6 as stated fails: 2100-03-01T00:00:00 is a valid date and time whose epoch
4107542400 is inside the `unsigned long` range, but after
`setTime(0, 0, 0, 1, 3, 2100)` the getters show 29 February (`getMonth() = 1`,
`getDay() = 29`). -/
theorem setTimeCal_roundTrip_fails :
    ¬ ∀ (c : Clock) (sc mn hr dy mt yr : Int), validDateTime sc mn hr dy mt yr →
      1970 ≤ yr → utcEpoch sc mn hr dy mt yr < 4294967296 →
      calendarRoundTrip c sc mn hr dy mt yr := by
  intro h
  have h2 := h ⟨false, 0, 0⟩ 0 0 0 1 3 2100 (by decide) (by decide) (by decide)
  revert h2
  decide

/-- C6 (amended): for every valid calendar date and time of day (month 1..12,
day valid for the month and year, hour 0..23, minute and second 0..59) with
year from 1970 up to the `unsigned long` epoch range (UTC epoch `E < 2 ^ 32`),
`setTime(sc, mn, hr, dy, mt, yr)` stores the clock state of `setTime(E, 0)`; and
when the date is before 2100-03-01 (`E < 4107542400`), with Offset 0,
afterwards `getYear() = yr`, `getMonth() = mt - 1`, `getDay() = dy`,
`getHour(true) = hr`, `getMinute() = mn`, `getSecond() = sc`. -/
theorem setTimeCal_roundTrip (c : Clock) (sc mn hr dy mt yr : Int)
    (hv : validDateTime sc mn hr dy mt yr) (hy : 1970 ≤ yr)
    (hE : utcEpoch sc mn hr dy mt yr < 4294967296) :
    calendarStored c sc mn hr dy mt yr ∧
    (utcEpoch sc mn hr dy mt yr < 4107542400 → calendarReadBack c sc mn hr dy mt yr) := by
  obtain ⟨m0, m1, d0, d1, h0, h1, mi0, mi1, s0, s1⟩ := hv
  have hE0 : 0 ≤ utcEpoch sc mn hr dy mt yr := by
    have := daysFromCivil_nonneg yr (mt - 1) dy hy (by omega) (by omega) d0
    unfold utcEpoch
    omega
  have hset : setTimeCal c sc mn hr dy mt yr 0
      = setTime c (utcEpoch sc mn hr dy mt yr).toNat 0 := by
    rw [setTimeCal_eq c sc mn hr dy mt yr 0 m0 m1]
    congr 1
    unfold toULong
    omega
  refine ⟨hset, fun hB => ?_⟩
  obtain ⟨t, ht, hfields⟩ :=
    getTimeStruct_setTime c (utcEpoch sc mn hr dy mt yr).toNat 0 (by omega)
  rw [Int.toNat_of_nonneg hE0] at hfields
  obtain ⟨f1, f2, f3, f4, f5, f6⟩ := hfields
  have hd1 : dy ≤ daysInMonth yr (mt - 1 + 1) := by rw [sub_add_cancel]; exact d1
  obtain ⟨g1, g2, g3, g4, g5, g6⟩ := localtime_civil yr (mt - 1) dy hr mn sc (by omega)
    (by omega) d0 hd1 h0 h1 mi0 mi1 s0 s1
  have hu : utcEpoch sc mn hr dy mt yr
      = daysFromCivil yr (mt - 1) dy * 86400 + hr * 3600 + mn * 60 + sc := rfl
  rw [hu] at f1 f2 f3 f4 f5 f6
  rw [g1] at f1
  rw [g2] at f2
  rw [g3] at f3
  rw [g4] at f4
  rw [g5] at f5
  rw [g6] at f6
  refine ⟨?_, ?_, ?_, ?_, ?_, ?_⟩
  · unfold getYear; rw [hset, ht, Option.map_some', f1]; congr 1; omega
  · unfold getMonth; rw [hset, ht, Option.map_some', f2]
  · unfold getDay; rw [hset, ht, Option.map_some', f3]
  · unfold getHour; rw [hset, ht, Option.map_some', if_pos rfl, f4]
  · unfold getMinute; rw [hset, ht, Option.map_some', f5]
  · unfold getSecond; rw [hset, ht, Option.map_some', f6]

/-- C6 (amended) at the example of the source comment: `setTime(20, 34, 8, 1, 4, 2021)`
is 8:34:20 on 1 April 2021. -/
theorem setTimeCal_roundTrip_witness :
    (validDateTime 20 34 8 1 4 2021 ∧ (1970 : Int) ≤ 2021 ∧
      utcEpoch 20 34 8 1 4 2021 < 4294967296 ∧ utcEpoch 20 34 8 1 4 2021 < 4107542400) ∧
    calendarStored ⟨false, 0, 0⟩ 20 34 8 1 4 2021 ∧
    calendarReadBack ⟨false, 0, 0⟩ 20 34 8 1 4 2021 :=
  ⟨by decide,
    (setTimeCal_roundTrip ⟨false, 0, 0⟩ 20 34 8 1 4 2021 (by decide) (by decide)
      (by decide)).1,
    (setTimeCal_roundTrip ⟨false, 0, 0⟩ 20 34 8 1 4 2021 (by decide) (by decide)
      (by decide)).2 (by decide)⟩

/-- C7: concrete scenario below the threshold. With Offset 0, after
`setTime(0, 0, 0, 1, 1, 2021)` (epoch 1609459200, no overflow), `getYear() = 2021`,
`getMonth() = 0`, `getDay() = 1`, `getDate(false)` is `Fri, Jan 01 2021` and the
weekday index is 5. -/
theorem scenario_new_year_2021 (c : Clock) :
    setTimeCal c 0 0 0 1 1 2021 0 = ⟨false, 1609459200, 0⟩ ∧
    getYear (setTimeCal c 0 0 0 1 1 2021 0) 0 = some 2021 ∧
    getMonth (setTimeCal c 0 0 0 1 1 2021 0) 0 = some 0 ∧
    getDay (setTimeCal c 0 0 0 1 1 2021 0) 0 = some 1 ∧
    getDate (setTimeCal c 0 0 0 1 1 2021 0) 0 false = some "Fri, Jan 01 2021" ∧
    getDayofWeek (setTimeCal c 0 0 0 1 1 2021 0) 0 = some 5 := by
  have h : setTimeCal c 0 0 0 1 1 2021 0 = ⟨false, 1609459200, 0⟩ := by
    unfold setTimeCal
    dsimp only
    rw [setTime_eq]
    decide
  rw [h]
  decide

/-- C8: concrete scenario just past the threshold. With Offset 0, after
`setTime(2082758399 + 10, 0)` the overflow flag is true, the raw seconds written
are 10, and `getYear()` is the year of the UTC calendar breakdown of that epoch,
2036. -/
theorem scenario_past_threshold (c : Clock) :
    (setTime c (2082758399 + 10) 0).overflow = true ∧
    (setTime c (2082758399 + 10) 0).tv_sec = 10 ∧
    getYear (setTime c (2082758399 + 10) 0) 0
      = some ((localtime ((2082758399 + 10 : Nat) : Int)).tm_year + 1900) ∧
    getYear (setTime c (2082758399 + 10) 0) 0 = some 2036 := by
  have h : setTime c (2082758399 + 10) 0 = ⟨true, 10, 0⟩ := by
    rw [setTime_eq]
    decide
  rw [h]
  decide

/-- C9: 12-hour mode of `getHour`. For every current hour `h` in 0..23,
`getHour(false)` is in 1..12 and congruent to `h` modulo 12 (so 0 gives 12, 12
gives 12, 13 gives 1, 23 gives 11), and `getHour(true)` is `h` itself. -/
theorem getHour_modes (c : Clock) (o h : Int) (t : Tm) (ht : getTimeStruct c o = some t)
    (hh : t.tm_hour = h) (h0 : 0 ≤ h) (h23 : h ≤ 23) :
    ∃ r : Int, getHour c o false = some r ∧
      1 ≤ r ∧ r ≤ 12 ∧ r % 12 = h % 12 ∧
      (h = 0 → r = 12) ∧ (h = 12 → r = 12) ∧ (h = 13 → r = 1) ∧ (h = 23 → r = 11) ∧
      getHour c o true = some h := by
  unfold getHour
  rw [ht, Option.map_some', Option.map_some']
  dsimp only
  rw [hh]
  simp only [Bool.false_eq_true, if_false, if_true]
  refine ⟨_, rfl, ?_, ?_, ?_, ?_, ?_, ?_, ?_, trivial⟩ <;> split <;> (try split) <;> omega

/-- C9 at 13:00:00 on 1970-01-01, read as 1 in the 12-hour mode. -/
theorem getHour_modes_witness :
    (getTimeStruct ⟨false, 46800, 0⟩ 0 = some (localtime 46800) ∧
      (localtime 46800).tm_hour = 13 ∧ (0 : Int) ≤ 13 ∧ (13 : Int) ≤ 23) ∧
    ∃ r : Int, getHour ⟨false, 46800, 0⟩ 0 false = some r ∧
      1 ≤ r ∧ r ≤ 12 ∧ r % 12 = 13 % 12 ∧
      ((13 : Int) = 0 → r = 12) ∧ ((13 : Int) = 12 → r = 12) ∧ ((13 : Int) = 13 → r = 1) ∧
      ((13 : Int) = 23 → r = 11) ∧
      getHour ⟨false, 46800, 0⟩ 0 true = some 13 :=
  ⟨by decide,
    getHour_modes ⟨false, 46800, 0⟩ 0 13 (localtime 46800) (by decide) (by decide)
      (by decide) (by decide)⟩

/-- C10: `getAmPm`. For every current hour `h` in 0..23, `getAmPm(false)` is `AM`
when `h < 12` and `PM` when `h ≥ 12` (so `AM` for 0 and 11, `PM` for 12 and 23),
and `getAmPm(true)` is the same indicator in lowercase. -/
theorem getAmPm_spec (c : Clock) (o h : Int) (t : Tm) (ht : getTimeStruct c o = some t)
    (hh : t.tm_hour = h) (h0 : 0 ≤ h) (h23 : h ≤ 23) :
    getAmPm c o false = some (if h < 12 then "AM" else "PM") ∧
    getAmPm c o true = some (if h < 12 then "am" else "pm") ∧
    (getAmPm c o true).map String.data
      = (getAmPm c o false).map (fun s => s.data.map Char.toLower) ∧
    ((h = 0 ∨ h = 11) → getAmPm c o false = some "AM") ∧
    ((h = 12 ∨ h = 23) → getAmPm c o false = some "PM") := by
  unfold getAmPm
  rw [ht, Option.map_some', Option.map_some']
  rw [hh]
  simp only [Bool.false_eq_true, if_false, if_true, Option.map_some']
  by_cases hlt : h < 12
  · have hge : ¬ (h ≥ 12) := by omega
    simp only [hlt, hge, if_true, if_false]
    refine ⟨trivial, trivial, by decide, fun _ => trivial, fun hc => ?_⟩
    omega
  · have hge : h ≥ 12 := by omega
    simp only [hlt, hge, if_true, if_false]
    refine ⟨trivial, trivial, by decide, fun hc => ?_, fun _ => trivial⟩
    omega

/-- C10 at 23:00:00 on 1970-01-01. -/
theorem getAmPm_spec_witness :
    (getTimeStruct ⟨false, 82800, 0⟩ 0 = some (localtime 82800) ∧
      (localtime 82800).tm_hour = 23 ∧ (0 : Int) ≤ 23 ∧ (23 : Int) ≤ 23) ∧
    getAmPm ⟨false, 82800, 0⟩ 0 false = some (if (23 : Int) < 12 then "AM" else "PM") ∧
    getAmPm ⟨false, 82800, 0⟩ 0 true = some (if (23 : Int) < 12 then "am" else "pm") :=
  ⟨by decide,
    (getAmPm_spec ⟨false, 82800, 0⟩ 0 23 (localtime 82800) (by decide) (by decide)
      (by decide) (by decide)).1,
    (getAmPm_spec ⟨false, 82800, 0⟩ 0 23 (localtime 82800) (by decide) (by decide)
      (by decide) (by decide)).2.1⟩

/-! ## Calls, offset and weekday -/

/-- The flag and the seconds after any call depend on the epoch handed over only. -/
theorem applyCall_eq (c : Clock) (k : Call) :
    (applyCall c k).overflow = decide (2082758399 < callEpoch k) ∧
    (applyCall c k).tv_sec
      = (if 2082758399 < callEpoch k then (callEpoch k : Int) - 2082758399
         else (callEpoch k : Int)) := by
  cases k <;> simp only [applyCall, callEpoch, setTimeCal, setTimeStruct] <;>
    rw [setTime_eq] <;> exact ⟨rfl, rfl⟩

/-- The raw seconds stay at or below the threshold through a sequence of calls
whose epochs are at most twice the threshold. -/
theorem runCalls_raw_le (calls : List Call) (c : Clock)
    (hc : c.overflow = true → c.tv_sec ≤ 2082758399)
    (hk : ∀ k ∈ calls, callEpoch k ≤ 4165516798) :
    (runCalls c calls).overflow = true → (runCalls c calls).tv_sec ≤ 2082758399 := by
  induction calls generalizing c with
  | nil => exact hc
  | cons k rest ih =>
    have hk1 : callEpoch k ≤ 4165516798 := hk k (List.mem_cons_self k rest)
    have hstep : (applyCall c k).overflow = true → (applyCall c k).tv_sec ≤ 2082758399 := by
      obtain ⟨-, hs⟩ := applyCall_eq c k
      intro _
      rw [hs]
      split <;> omega
    exact ih (applyCall c k) hstep (fun k2 h2 => hk k2 (List.mem_cons_of_mem k h2))

/-- The day-of-week field of a UTC calendar breakdown fits its date. -/
theorem localtime_weekdayConsistent (t : Int) : weekdayConsistent (localtime t) := by
  have hd := daysFromCivil_localtime t
  have hw : (localtime t).tm_wday = (3 + (t / 86400 + 719468)) % 7 := rfl
  show (localtime t).tm_wday = dayOfWeek _ _ _
  unfold dayOfWeek
  rw [hd, hw]
  omega

/-- Up to the threshold the struct read back after `setTime` has the day of the
week of its date. -/
theorem getTimeStruct_wday_below (c : Clock) (e : Nat) (ms : Int) (h : e ≤ 2082758399) :
    ∃ t, getTimeStruct (setTime c e ms) 0 = some t ∧ weekdayConsistent t := by
  rw [getTimeStruct_eq _ 0 (by omega) (by omega), setTime_eq]
  refine ⟨_, rfl, ?_⟩
  have h2 : ¬ 2082758399 < e := by omega
  simp only [h2, decide_False, Bool.false_eq_true, if_false]
  exact localtime_weekdayConsistent _

/-- Past the threshold the struct read back after `setTime` never has the day of
the week of its date: the field is the one of the date 64 years earlier. -/
theorem getTimeStruct_wday_past (c : Clock) (e : Nat) (ms : Int) (h0 : 2082758399 < e)
    (h1 : e < 4294967296) :
    ∃ t, getTimeStruct (setTime c e ms) 0 = some t ∧ ¬ weekdayConsistent t := by
  rw [getTimeStruct_eq _ 0 (by omega) (by omega), setTime_eq]
  refine ⟨_, rfl, ?_⟩
  simp only [h0, decide_True, if_true, add_zero]
  generalize hx : (e : Int) - 2082758399 + 63071999 = x
  have hx0 : 63072000 ≤ x := by omega
  have hx1 : x < 2275280896 := by omega
  obtain ⟨b1, -, -, -, -, b6⟩ := localtime_marchYear x
  have hs := daysFromCivil_add64 ((localtime x).tm_year + 1900) (localtime x).tm_mon
    (localtime x).tm_mday (b1 (by omega)) (b6 (by omega))
  have hd := daysFromCivil_localtime x
  have hw : (localtime x).tm_wday = (3 + (x / 86400 + 719468)) % 7 := rfl
  show ¬ ((localtime x).tm_wday
    = dayOfWeek ((localtime x).tm_year + 64 + 1900) (localtime x).tm_mon (localtime x).tm_mday)
  unfold dayOfWeek
  have e3 : (localtime x).tm_year + 64 + 1900 = (localtime x).tm_year + 1900 + 64 := by omega
  rw [e3, hs, hd, hw]
  split <;> omega

/-- For every `long` offset but the most negative, `getTimeStruct` returns the
reference struct of the spec. -/
theorem getTimeStruct_eq_reference (c : Clock) (o : Int) (h0 : -2147483647 ≤ o)
    (h1 : o ≤ 2147483647) :
    getTimeStruct c o = some (referenceTimeStruct c.tv_sec c.overflow o) := by
  rw [getTimeStruct_eq c o h0 h1]
  unfold referenceTimeStruct
  cases c.overflow <;> simp

/-- C11: sub-second reads ignore offset and overflow. For every clock state
`getMicros()` is the microsecond field and `getMillis()` is that field divided
by 1000 (both as `unsigned long`, so modulo `2 ^ 32`; exact for a field in
`0 .. 2 ^ 32 - 1`), whatever the offset, the overflow flag and the seconds; and
after `setTime(e, us)` with `0 ≤ us < 1000000`, `getMicros() = us` and
`getMillis() = us / 1000` for every `e`. -/
theorem subsecond_reads (c : Clock) (o o' : Int) (f : Bool) (s : Int) (e : Nat) (us : Int)
    (h0 : 0 ≤ us) (h1 : us < 1000000) :
    ((getMicros c o : Nat) : Int) = c.tv_usec % 4294967296 ∧
    ((getMillis c o : Nat) : Int) = Int.tdiv c.tv_usec 1000 % 4294967296 ∧
    (0 ≤ c.tv_usec → c.tv_usec < 4294967296 →
      ((getMicros c o : Nat) : Int) = c.tv_usec ∧
      ((getMillis c o : Nat) : Int) = c.tv_usec / 1000) ∧
    getMicros { overflow := f, tv_sec := s, tv_usec := c.tv_usec } o' = getMicros c o ∧
    getMillis { overflow := f, tv_sec := s, tv_usec := c.tv_usec } o' = getMillis c o ∧
    ((getMicros (setTime c e us) o : Nat) : Int) = us ∧
    ((getMillis (setTime c e us) o : Nat) : Int) = us / 1000 := by
  have hus : (setTime c e us).tv_usec = us := by rw [setTime_eq]
  refine ⟨toULong_cast _, toULong_cast _, ?_, rfl, rfl, ?_, ?_⟩
  · intro a b
    have hq : Int.tdiv c.tv_usec 1000 = c.tv_usec / 1000 := by
      rw [Int.tdiv_eq_ediv a (by norm_num)]
    constructor
    · show ((toULong c.tv_usec : Nat) : Int) = _
      rw [toULong_cast]; omega
    · show ((toULong (Int.tdiv c.tv_usec 1000) : Nat) : Int) = _
      rw [toULong_cast, hq]; omega
  · show ((toULong (setTime c e us).tv_usec : Nat) : Int) = _
    rw [toULong_cast, hus]; omega
  · show ((toULong (Int.tdiv (setTime c e us).tv_usec 1000) : Nat) : Int) = _
    rw [toULong_cast, hus, Int.tdiv_eq_ediv h0 (by norm_num)]; omega

/-- C11 after `setTime` past the threshold with 999999 microseconds. -/
theorem subsecond_reads_witness :
    ((0 : Int) ≤ 999999 ∧ (999999 : Int) < 1000000) ∧
    ((getMicros (setTime ⟨false, 0, 0⟩ 4294967295 999999) 3600 : Nat) : Int) = 999999 ∧
    ((getMillis (setTime ⟨false, 0, 0⟩ 4294967295 999999) 3600 : Nat) : Int)
      = (999999 : Int) / 1000 :=
  ⟨by decide,
    (subsecond_reads ⟨false, 0, 0⟩ 3600 0 true 5 4294967295 999999 (by decide)
      (by decide)).2.2.2.2.2.1,
    (subsecond_reads ⟨false, 0, 0⟩ 3600 0 true 5 4294967295 999999 (by decide)
      (by decide)).2.2.2.2.2.2⟩

/-- C13 as stated fails: `setTime(4294967295, 0)` uses an epoch of the unsigned
range, sets the overflow flag and stores 2212208896 raw seconds, more than
2082758399. -/
theorem raw_epoch_invariant_fails :
    ¬ ∀ (c : Clock) (calls : List Call), (c.overflow = true → c.tv_sec ≤ 2082758399) →
      (∀ k ∈ calls, callEpoch k < 4294967296) →
      (runCalls c calls).overflow = true → (runCalls c calls).tv_sec ≤ 2082758399 := by
  intro h
  have h2 := h ⟨false, 0, 0⟩ [Call.epochCall 4294967295 0] (by decide)
    (by intro k hk; rw [List.mem_singleton] at hk; subst hk; decide) (by decide)
  revert h2
  decide

/-- C13 (amended): in every state reached from a state that satisfies the
invariant by calls to `setTime` (either form) or `setTimeStruct` whose epoch is
at most `2 * 2082758399 = 4165516798`, whenever the overflow flag is true the raw
seconds stored in the clock are at most 2082758399. -/
theorem raw_epoch_invariant (c : Clock) (calls : List Call)
    (hc : c.overflow = true → c.tv_sec ≤ 2082758399)
    (hk : ∀ k ∈ calls, callEpoch k ≤ 4165516798) :
    (runCalls c calls).overflow = true → (runCalls c calls).tv_sec ≤ 2082758399 :=
  runCalls_raw_le calls c hc hk

/-- C13 (amended) for a calendar call followed by the largest epoch it covers. -/
theorem raw_epoch_invariant_witness :
    (((⟨false, 0, 0⟩ : Clock).overflow = true → (⟨false, 0, 0⟩ : Clock).tv_sec ≤ 2082758399) ∧
     (∀ k ∈ [Call.calendarCall 0 0 0 1 1 2021 0, Call.epochCall 4165516798 0],
        callEpoch k ≤ 4165516798) ∧
     (runCalls ⟨false, 0, 0⟩
        [Call.calendarCall 0 0 0 1 1 2021 0, Call.epochCall 4165516798 0]).overflow = true) ∧
    (runCalls ⟨false, 0, 0⟩
        [Call.calendarCall 0 0 0 1 1 2021 0, Call.epochCall 4165516798 0]).tv_sec
      ≤ 2082758399 :=
  ⟨by decide,
    raw_epoch_invariant ⟨false, 0, 0⟩
      [Call.calendarCall 0 0 0 1 1 2021 0, Call.epochCall 4165516798 0]
      (by decide) (by decide) (by decide)⟩

/-- C14, the code with the most negative `long`, -2147483648, as Offset:
`getTimeStruct()` evaluates `offset * -1`, which overflows `long`, so it has no
defined result there, where the reference is the breakdown of `r - 2147483648`;
at the next offset, -2147483647, it returns the reference struct. -/
theorem getTimeStruct_long_min (c : Clock) :
    mulLong (-2147483648) (-1) = none ∧
    getTimeStruct c (-2147483648) = none ∧
    getTimeStruct c (-2147483648)
      ≠ some (referenceTimeStruct c.tv_sec c.overflow (-2147483648)) ∧
    getTimeStruct c (-2147483647)
      = some (referenceTimeStruct c.tv_sec c.overflow (-2147483647)) := by
  refine ⟨mulLong_neg_min, getTimeStruct_min c, ?_,
    getTimeStruct_eq_reference c _ (by omega) (by omega)⟩
  rw [getTimeStruct_min c]
  exact fun h => Option.noConfusion h

/-- C15, the code with the most negative `long`, -2147483648, as Offset: the
branch of `getTimeStruct` evaluates `offset * -1`, which overflows `long`, so it
has no defined result, where the signed add is `tt - 2147483648`; at the offsets
-2147483647, 0 and 2147483647 the branch is the signed add. -/
theorem applyOffset_long_min (tt : Int) :
    mulLong (-2147483648) (-1) = none ∧
    applyOffset tt (-2147483648) = none ∧
    signedAdd tt (-2147483648) = tt - 2147483648 ∧
    applyOffset tt (-2147483647) = some (signedAdd tt (-2147483647)) ∧
    applyOffset tt 0 = some (signedAdd tt 0) ∧
    applyOffset tt 2147483647 = some (signedAdd tt 2147483647) :=
  ⟨mulLong_neg_min, applyOffset_min tt, rfl, applyOffset_eq tt _ (by omega) (by omega),
    applyOffset_eq tt _ (by omega) (by omega), applyOffset_eq tt _ (by omega) (by omega)⟩

/-- C16, the code at `setTime(2082758400, 0)` with Offset 0: the struct read back
is 2036-01-01, a Tuesday (index 2), but its day-of-week field, `getDayofWeek()`
and the name printed by `getDate` are those of Saturday (index 6), the day of
the week of 1972-01-01. -/
theorem weekday_past_threshold :
    getTimeStruct (setTime ⟨false, 0, 0⟩ 2082758400 0) 0
      = some { tm_sec := 0, tm_min := 0, tm_hour := 0, tm_mday := 1, tm_mon := 0,
               tm_year := 2036 - 1900, tm_wday := 6, tm_yday := 0, tm_isdst := 0 } ∧
    dayOfWeek 2036 0 1 = 2 ∧
    getDayofWeek (setTime ⟨false, 0, 0⟩ 2082758400 0) 0 = some 6 ∧
    getDate (setTime ⟨false, 0, 0⟩ 2082758400 0) 0 false = some "Sat, Jan 01 2036" ∧
    (localtime 63072000).tm_year + 1900 = 1972 ∧ dayOfWeek 1972 0 1 = 6 := by
  decide

/-- C17: `setTimeStruct` undoes `getTimeStruct`. For every epoch `e` with
`0 ≤ e < 4107542400` and every microseconds value `us`, with Offset 0, after
`setTime(e, us)` the call `setTimeStruct(getTimeStruct())` leaves the overflow
flag and the raw seconds unchanged and sets the microsecond field to 0. -/
theorem setTimeStruct_getTimeStruct (c : Clock) (e : Nat) (us : Int)
    (he : e < 4107542400) :
    ∃ t, getTimeStruct (setTime c e us) 0 = some t ∧
      (setTimeStruct (setTime c e us) t).overflow = (setTime c e us).overflow ∧
      (setTimeStruct (setTime c e us) t).tv_sec = (setTime c e us).tv_sec ∧
      (setTimeStruct (setTime c e us) t).tv_usec = 0 := by
  obtain ⟨t, ht, -⟩ := getTimeStruct_setTime c e us he
  have hg := getEpoch_setTime c e us 0 (by omega) (by omega) (by omega)
  have hne : ¬ (2082758399 < e ∧ 4107628800 ≤ (e : Int) + 0 ∧ (e : Int) + 0 < 6127228800) := by
    omega
  have hcast := toULong_cast ((e : Int) + 0 - 0)
  unfold getEpoch at hg
  rw [ht, Option.map_some', if_neg hne] at hg
  have hep : toULong (mktime t) = e := by
    have := Option.some.inj hg
    omega
  have hs : setTimeStruct (setTime c e us) t = setTime (setTime c e us) e 0 := by
    show setTime (setTime c e us) (toULong (mktime t)) 0 = _
    rw [hep]
  refine ⟨t, ht, ?_⟩
  rw [hs, setTime_eq (setTime c e us) e 0, setTime_eq c e us]
  exact ⟨rfl, rfl, rfl⟩

/-- C17 at the last second it covers, with a nonzero microseconds value. -/
theorem setTimeStruct_getTimeStruct_witness :
    (4107542399 : Nat) < 4107542400 ∧
    ∃ t, getTimeStruct (setTime ⟨false, 0, 0⟩ 4107542399 999999) 0 = some t ∧
      (setTimeStruct (setTime ⟨false, 0, 0⟩ 4107542399 999999) t).overflow
        = (setTime ⟨false, 0, 0⟩ 4107542399 999999).overflow ∧
      (setTimeStruct (setTime ⟨false, 0, 0⟩ 4107542399 999999) t).tv_sec
        = (setTime ⟨false, 0, 0⟩ 4107542399 999999).tv_sec ∧
      (setTimeStruct (setTime ⟨false, 0, 0⟩ 4107542399 999999) t).tv_usec = 0 :=
  ⟨by decide, setTimeStruct_getTimeStruct ⟨false, 0, 0⟩ 4107542399 999999 (by decide)⟩

end ESP32Time
